import Mathlib

/-!
Verification of `src/rust/scx_utils/src/build_helpers.rs` (scx build helpers).

The Rust module is build-script glue around an embedded tar archive of BPF
headers: `install_bpf_h` unpacks the archive, `vmlinux_h_version` parses a
`(version, hash)` pair out of the link target of the `vmlinux/vmlinux.h`
archive entry, `bindgen_bpf_intf` runs bindgen over an interface header, and
`gen_bpf_skel` compiles a BPF program into a skeleton and registers
change-tracking (`cargo:rerun-if-changed`) directives.

The embedding below models the archive as a list of entries, the environment
and the external tools (tar unpacker, bindgen, libbpf-cargo SkeletonBuilder,
the glob crate) as explicit oracles, and a panicking run as `Except.error`.
Observable effects (env reads, compiler invocations, emitted cargo
directives, file writes) are recorded in an event trace so that ordering and
absence claims can be stated.
-/

namespace BuildHelpers

/-- One entry of the embedded `bpf_h.tar` archive: its path inside the
archive and, when the entry is a (sym)link, its link target
(`tar::Entry::link_name`). `BPF_H_TAR` itself is a build artifact, so the
archive contents stay abstract: every theorem quantifies over the entry
list. -/
structure TarEntry where
  path : String
  linkName : Option String
  deriving Repr, DecidableEq

/-- The sentinel path `vmlinux/vmlinux.h` scanned for by `vmlinux_h_version`. -/
def sentinelPath : String := "vmlinux/vmlinux.h"

/-! ### Model of `sscanf!(name, "vmlinux-v{String}-g{String}.h")`

Modelled from the `sscanf` crate: the format string compiles to the anchored
regex `^vmlinux\-v(.+)\-g(.+)\.h$` where each `{String}` is the default
greedy `.+` (one or more characters, `.` not matching a newline).  With
backtracking, the first group being greedy means the match splits the middle
segment at the LAST occurrence of `"-g"` that leaves both groups non-empty,
and the trailing `\.h` consumes exactly the final two characters. -/

/-- Strip an expected literal run of characters from the front of the input;
`none` when the input does not start with the literal. -/
def dropLit : List Char → List Char → Option (List Char)
  | [], cs => some cs
  | _ :: _, [] => none
  | l :: ls, c :: cs => if c = l then dropLit ls cs else none

/-- Strip the literal suffix `".h"` (the regex's trailing `\.h$` consumes
exactly the final two characters); returns everything before it. -/
def stripDotH (cs : List Char) : Option (List Char) :=
  if 2 ≤ cs.length ∧ cs.drop (cs.length - 2) = ['.', 'h'] then
    some (cs.take (cs.length - 2))
  else none

/-- Does the character list contain the two-character run `-g`? -/
def hasDG : List Char → Bool
  | c1 :: c2 :: cs => (c1 = '-' ∧ c2 = 'g') || hasDG (c2 :: cs)
  | _ => false

/-- Split the input at the last occurrence of `"-g"` that leaves a non-empty
remainder after it (the greedy-first-group backtracking behaviour of
`(.+)-g(.+)`), allowing an empty part before the split; the caller enforces
that the first group is non-empty. -/
def splitLastDG : List Char → Option (List Char × List Char)
  | c1 :: c2 :: cs =>
    match splitLastDG (c2 :: cs) with
    | some (v, rest) => some (c1 :: v, rest)
    | none => if c1 = '-' ∧ c2 = 'g' ∧ cs ≠ [] then some ([], cs) else none
  | _ => none

/-- The sscanf parse of a link-target name against
`"vmlinux-v{String}-g{String}.h"`: `none` models the `Err` that
`.unwrap()` panics on. A newline anywhere makes the regex fail since every
position is matched by a literal (newline-free) character or by `.`. -/
def sscanfVmlinux (name : String) : Option (String × String) :=
  if '\n' ∈ name.data then none
  else
    (dropLit "vmlinux-v".data name.data).bind fun rest =>
    (stripDotH rest).bind fun mid =>
    (splitLastDG mid).bind fun vh =>
    if vh.1.isEmpty then none else some (⟨vh.1⟩, ⟨vh.2⟩)

/-- Embedding of `vmlinux_h_version`: scan the archive entries in stored
order; the first entry whose path is `vmlinux/vmlinux.h` has its link name
read (`.unwrap()` on a missing link panics) and parsed with sscanf
(`.unwrap()` on a parse failure panics); reaching the end of the archive
panics with "vmlinux/vmlinux.h not found". `Except.error` models a panic. -/
def vmlinux_h_version : List TarEntry → Except String (String × String)
  | [] => .error "vmlinux/vmlinux.h not found"
  | e :: rest =>
    if e.path = sentinelPath then
      match e.linkName with
      | none => .error "called `Option::unwrap()` on a `None` value"
      | some name =>
        match sscanfVmlinux name with
        | none => .error "sscanf failed to match"
        | some vh => .ok vh
    else vmlinux_h_version rest

/-! ### Parsing lemmas -/

lemma dropLit_append (ls cs : List Char) : dropLit ls (ls ++ cs) = some cs := by
  induction ls with
  | nil => rfl
  | cons a ls ih => simp [dropLit, ih]

lemma stripDotH_append (xs : List Char) : stripDotH (xs ++ ['.', 'h']) = some xs := by
  have h1 : (xs ++ ['.', 'h']).length - 2 = xs.length := by simp
  have h2 : (xs ++ ['.', 'h']).drop xs.length = ['.', 'h'] := List.drop_left xs _
  have h3 : (xs ++ ['.', 'h']).take xs.length = xs := List.take_left xs _
  simp [stripDotH, h1, h2, h3]

lemma hasDG_g_cons (cs : List Char) : hasDG ('g' :: cs) = hasDG cs := by
  cases cs with
  | nil => rfl
  | cons c cs => simp [hasDG]

lemma splitLastDG_eq_none (cs : List Char) (h : hasDG cs = false) :
    splitLastDG cs = none := by
  induction cs with
  | nil => rfl
  | cons c1 rest ih =>
    cases rest with
    | nil => rfl
    | cons c2 cs' =>
      simp [hasDG] at h
      simp only [splitLastDG, ih h.2]
      rw [if_neg]
      rintro ⟨h1, h2, -⟩
      exact (h.1 h1) h2

lemma splitLastDG_append (v sha : List Char) (hne : sha ≠ [])
    (hno : hasDG sha = false) :
    splitLastDG (v ++ '-' :: 'g' :: sha) = some (v, sha) := by
  induction v with
  | nil =>
    obtain ⟨x, xs, rfl⟩ := List.exists_cons_of_ne_nil hne
    have hnone : splitLastDG ('g' :: x :: xs) = none :=
      splitLastDG_eq_none _ (by rw [hasDG_g_cons]; exact hno)
    have step : splitLastDG ('-' :: 'g' :: x :: xs) =
        match splitLastDG ('g' :: x :: xs) with
        | some (v, rest) => some ('-' :: v, rest)
        | none =>
          if ('-' : Char) = '-' ∧ ('g' : Char) = 'g' ∧ x :: xs ≠ [] then
            some ([], x :: xs)
          else none := rfl
    show splitLastDG ('-' :: 'g' :: x :: xs) = some ([], x :: xs)
    rw [step, hnone]
    simp
  | cons a v' ih =>
    cases hsplit : v' ++ '-' :: 'g' :: sha with
    | nil => exact absurd hsplit (by simp)
    | cons b cs =>
      have ihv := ih
      rw [hsplit] at ihv
      have step : splitLastDG (a :: b :: cs) =
          match splitLastDG (b :: cs) with
          | some (v, rest) => some (a :: v, rest)
          | none => if a = '-' ∧ b = 'g' ∧ cs ≠ [] then some ([], cs) else none :=
        rfl
      show splitLastDG (a :: (v' ++ '-' :: 'g' :: sha)) = some (a :: v', sha)
      rw [hsplit, step, ihv]

/-- Successful parse of a canonically-shaped link target, provided the hash
segment contains no `-g` (the greedy first group otherwise absorbs it). -/
lemma sscanfVmlinux_ok (version hash : String) (hv : version.data ≠ [])
    (hsha : hash.data ≠ []) (hnv : '\n' ∉ version.data)
    (hnsha : '\n' ∉ hash.data) (hno : hasDG hash.data = false) :
    sscanfVmlinux ("vmlinux-v" ++ version ++ "-g" ++ hash ++ ".h") =
      some (version, hash) := by
  have hdata : ("vmlinux-v" ++ version ++ "-g" ++ hash ++ ".h").data =
      "vmlinux-v".data ++ (version.data ++ '-' :: 'g' :: hash.data ++ ['.', 'h']) := by
    simp [String.data_append]
  unfold sscanfVmlinux
  rw [hdata]
  have hmem : '\n' ∉ "vmlinux-v".data ++
      (version.data ++ '-' :: 'g' :: hash.data ++ ['.', 'h']) := by
    simp [List.mem_append, hnv, hnsha]
  rw [if_neg hmem, dropLit_append, Option.some_bind, stripDotH_append,
    Option.some_bind, splitLastDG_append _ _ hsha hno, Option.some_bind]
  simp [List.isEmpty_iff, hv]

lemma vmlinux_h_version_skip (pre l : List TarEntry)
    (hpre : ∀ x ∈ pre, x.path ≠ sentinelPath) :
    vmlinux_h_version (pre ++ l) = vmlinux_h_version l := by
  induction pre with
  | nil => rfl
  | cons e pre ih =>
    have he : e.path ≠ sentinelPath := hpre e (by simp)
    simp only [List.cons_append, vmlinux_h_version, if_neg he]
    exact ih fun x hx => hpre x (by simp [hx])

/-! ### Claim theorems for the Version Extractor -/

/-- C1 (amended): if the first `vmlinux/vmlinux.h` entry's link target is
`"vmlinux-v" ++ version ++ "-g" ++ hash ++ ".h"` with both segments
non-empty and newline-free and the hash containing no `-g`, then
`vmlinux_h_version` returns exactly `(version, hash)`. -/
theorem vmlinux_h_version_parses (pre : List TarEntry) (e : TarEntry)
    (rest : List TarEntry) (version hash : String)
    (hpre : ∀ x ∈ pre, x.path ≠ sentinelPath)
    (hpath : e.path = sentinelPath)
    (hlink : e.linkName = some ("vmlinux-v" ++ version ++ "-g" ++ hash ++ ".h"))
    (hv : version.data ≠ []) (hsha : hash.data ≠ [])
    (hnv : '\n' ∉ version.data) (hnsha : '\n' ∉ hash.data)
    (hno : hasDG hash.data = false) :
    vmlinux_h_version (pre ++ e :: rest) = .ok (version, hash) := by
  rw [vmlinux_h_version_skip pre _ hpre]
  simp only [vmlinux_h_version, if_pos hpath, hlink,
    sscanfVmlinux_ok version hash hv hsha hnv hnsha hno]

/-- Witness for C1: a concrete archive whose sentinel entry parses to
`("6.6", "deadbeef1234")`. -/
theorem vmlinux_h_version_parses_witness :
    vmlinux_h_version
      [⟨"vmlinux/vmlinux.h", some "vmlinux-v6.6-gdeadbeef1234.h"⟩] =
      .ok ("6.6", "deadbeef1234") := by
  have h := vmlinux_h_version_parses [] ⟨"vmlinux/vmlinux.h",
      some ("vmlinux-v" ++ "6.6" ++ "-g" ++ "deadbeef1234" ++ ".h")⟩ []
      "6.6" "deadbeef1234" (by simp) rfl rfl (by decide) (by decide)
      (by decide) (by decide) (by decide)
  simpa using h

/-- C1 counterexample: the sscanf parse is greedy, so for
`version = "1"`, `hash = "2-g3"` the link target
`"vmlinux-v1-g2-g3.h"` parses to `("1-g2", "3")`, not `("1", "2-g3")` as
the unamended claim requires. -/
theorem vmlinux_h_version_greedy_cex :
    vmlinux_h_version
      [⟨"vmlinux/vmlinux.h", some ("vmlinux-v" ++ "1" ++ "-g" ++ "2-g3" ++ ".h")⟩] =
      .ok ("1-g2", "3") ∧ (("1-g2" : String), ("3" : String)) ≠ ("1", "2-g3") := by
  exact ⟨by rfl, by decide⟩

/-- C4: `vmlinux_h_version` panics when no entry has the sentinel path, and
panics when the first sentinel entry's link target is absent or fails the
sscanf parse; in both cases no value is returned. -/
theorem vmlinux_h_version_fatal :
    (∀ ar : List TarEntry, (∀ x ∈ ar, x.path ≠ sentinelPath) →
      vmlinux_h_version ar = .error "vmlinux/vmlinux.h not found") ∧
    (∀ (pre : List TarEntry) (e : TarEntry) (rest : List TarEntry),
      (∀ x ∈ pre, x.path ≠ sentinelPath) → e.path = sentinelPath →
      (e.linkName = none ∨ ∃ s, e.linkName = some s ∧ sscanfVmlinux s = none) →
      ∃ msg, vmlinux_h_version (pre ++ e :: rest) = .error msg) := by
  constructor
  · intro ar har
    have h := vmlinux_h_version_skip ar [] har
    simpa using h
  · intro pre e rest hpre hpath hbad
    rw [vmlinux_h_version_skip pre _ hpre]
    rcases hbad with hnone | ⟨s, hs, hfail⟩
    · exact ⟨"called `Option::unwrap()` on a `None` value",
        by simp [vmlinux_h_version, if_pos hpath, hnone]⟩
    · exact ⟨"sscanf failed to match",
        by simp [vmlinux_h_version, if_pos hpath, hs, hfail]⟩

/-- Witness for C4: an archive with no sentinel entry panics with the
not-found message, and a sentinel entry with an unparseable link target
panics as well. -/
theorem vmlinux_h_version_fatal_witness :
    vmlinux_h_version [⟨"foo.h", none⟩] = .error "vmlinux/vmlinux.h not found" ∧
    ∃ msg, vmlinux_h_version [⟨"vmlinux/vmlinux.h", some "garbage"⟩] =
      .error msg := by
  refine ⟨vmlinux_h_version_fatal.1 [⟨"foo.h", none⟩] ?_,
    vmlinux_h_version_fatal.2 [] ⟨"vmlinux/vmlinux.h", some "garbage"⟩ [] ?_ rfl
      (Or.inr ⟨"garbage", rfl, by decide⟩)⟩
  · intro x hx
    simp at hx
    subst hx
    decide
  · simp

/-! ### The Archive Store and repeated calls (C7) -/

/-- The archive store: the immutable embedded `BPF_H_TAR` blob, viewed as
its entry list. `include_bytes!` bakes it in at compile time; nothing in
the module ever writes to it. -/
structure ArchiveStore where
  entries : List TarEntry
  deriving Repr, DecidableEq

/-- One call of `vmlinux_h_version` against the store: the Rust function
builds a fresh `tar::Archive` reader over the same static bytes on every
call and holds no cache, so a call returns the scan result and leaves the
store exactly as it was. -/
def vmlinux_h_version_call (st : ArchiveStore) :
    Except String (String × String) × ArchiveStore :=
  (vmlinux_h_version st.entries, st)

/-- C7: a call leaves the archive store unchanged, and a second call on the
post-state returns the same result as the first call. -/
theorem vmlinux_h_version_idempotent (st : ArchiveStore) :
    (vmlinux_h_version_call st).2 = st ∧
    (vmlinux_h_version_call (vmlinux_h_version_call st).2).1 =
      (vmlinux_h_version_call st).1 :=
  ⟨rfl, rfl⟩

/-! ### Observable build-script effects

The remaining functions are sequences of effects: environment reads,
`println!("cargo:rerun-if-changed=…")` directives, invocations of the
external tools, file writes.  A run is modelled as the list of events it
performs together with its outcome (`Except.error` again modelling a
panic). -/

inductive Event where
  | envRead (name : String)
  | emitDirective (s : String)
  | compileInvoked (source obj clang clangArgs skelPath : String)
  | generateInvoked (header : String) (clangArgs : List String)
  | fileWrite (path : String)
  | globQuery (pat : String)
  deriving Repr, DecidableEq

/-- Is the event a bindings-file write attempt? -/
def Event.isFileWrite : Event → Bool
  | .fileWrite _ => true
  | _ => false

/-- Is the event an invocation of the BPF compiler/linker (SkeletonBuilder)? -/
def Event.isCompile : Event → Bool
  | .compileInvoked .. => true
  | _ => false

/-- Is the event a filesystem glob query? -/
def Event.isGlobQuery : Event → Bool
  | .globQuery _ => true
  | _ => false

/-- The `cargo:rerun-if-changed` directives of a trace, in emission order. -/
def emittedDirectives (t : List Event) : List String :=
  t.filterMap fun e =>
    match e with
    | .emitDirective s => some s
    | _ => none

/-- ASCII whitespace, modelling the characters `split_whitespace` splits on
for the flag strings at hand. -/
def isWs (c : Char) : Bool := c = ' ' ∨ c = '\t' ∨ c = '\n' ∨ c = '\r'

/-- Accumulating splitter behind `splitWhitespaceModel`. -/
def splitWsAux : List Char → List Char → List (List Char)
  | [], acc => if acc = [] then [] else [acc.reverse]
  | c :: cs, acc =>
    if isWs c then
      if acc = [] then splitWsAux cs [] else acc.reverse :: splitWsAux cs []
    else splitWsAux cs (c :: acc)

/-- Model of Rust's `str::split_whitespace`: maximal runs of
non-whitespace, empty pieces dropped. -/
def splitWhitespaceModel (s : String) : List String :=
  (splitWsAux s.data []).map (⟨·⟩)

/-- Oracles for the external binding generator: `generate header args`
models `bindgen::Builder::…::generate()` (returning the bindings or
failing), `writeOut path content` models `Bindings::write_to_file`. -/
structure BindgenOracles where
  generate : String → List String → Except String String
  writeOut : String → String → Except String Unit

/-- Embedding of `bindgen_bpf_intf`: default the two names, emit the
`cargo:rerun-if-changed` directive for the interface header, read
`BPF_CFLAGS` (`.unwrap()` panics if unset), run the binding generator
(`.expect("Unable to generate bindings")`), read `OUT_DIR`, and write the
bindings to `OUT_DIR/<bpf_intf_rs>` (`.expect("Couldn't write
bindings!")`). -/
def bindgen_bpf_intf (env : String → Option String) (oracle : BindgenOracles)
    (bpf_intf_rs intf_h : Option String) : List Event × Except String Unit :=
  let intf_h := intf_h.getD "src/bpf/intf.h"
  let bpf_intf_rs := bpf_intf_rs.getD "bpf_intf.rs"
  let ev0 := [Event.emitDirective ("cargo:rerun-if-changed=" ++ intf_h)]
  match env "BPF_CFLAGS" with
  | none => (ev0 ++ [.envRead "BPF_CFLAGS"],
      .error "called `Result::unwrap()` on an `Err` value")
  | some cflags =>
    let args := splitWhitespaceModel cflags
    let ev1 := ev0 ++ [.envRead "BPF_CFLAGS", .generateInvoked intf_h args]
    match oracle.generate intf_h args with
    | .error _ => (ev1, .error "Unable to generate bindings")
    | .ok content =>
      match env "OUT_DIR" with
      | none => (ev1 ++ [.envRead "OUT_DIR"],
          .error "called `Result::unwrap()` on an `Err` value")
      | some out =>
        let path := out ++ "/" ++ bpf_intf_rs
        match oracle.writeOut path content with
        | .error _ => (ev1 ++ [.envRead "OUT_DIR", .fileWrite path],
            .error "Couldn't write bindings!")
        | .ok _ => (ev1 ++ [.envRead "OUT_DIR", .fileWrite path], .ok ())

/-- C6: when the binding generator fails on the interface header, the run
panics with "Unable to generate bindings" and never attempts to write a
bindings file. -/
theorem bindgen_bpf_intf_generate_fail (env : String → Option String)
    (oracle : BindgenOracles) (rs ih : Option String) (cf : String)
    (hcf : env "BPF_CFLAGS" = some cf)
    (hgen : ∀ hdr args, ∃ e, oracle.generate hdr args = .error e) :
    (bindgen_bpf_intf env oracle rs ih).2 = .error "Unable to generate bindings" ∧
    (bindgen_bpf_intf env oracle rs ih).1.any Event.isFileWrite = false := by
  obtain ⟨e, he⟩ := hgen (ih.getD "src/bpf/intf.h")
    (splitWhitespaceModel cf)
  simp [bindgen_bpf_intf, hcf, he, Event.isFileWrite]

/-- Witness for C6: a concrete environment and an always-failing generator
panic without any file-write event. -/
theorem bindgen_bpf_intf_generate_fail_witness :
    (bindgen_bpf_intf (fun n => if n = "BPF_CFLAGS" then some "-O2" else none)
        ⟨fun _ _ => .error "syntax error", fun _ _ => .ok ()⟩ none none).2 =
      .error "Unable to generate bindings" ∧
    (bindgen_bpf_intf (fun n => if n = "BPF_CFLAGS" then some "-O2" else none)
        ⟨fun _ _ => .error "syntax error", fun _ _ => .ok ()⟩ none none).1.any
      Event.isFileWrite = false :=
  bindgen_bpf_intf_generate_fail _ _ none none "-O2" rfl
    (fun _ _ => ⟨"syntax error", rfl⟩)

/-- C9: on every invocation — whatever the environment and however the
generator or the file write fare — the very first emitted event is the
`cargo:rerun-if-changed` directive for the interface header, so the
directive is already out when a later step aborts. -/
theorem bindgen_bpf_intf_directive_first (env : String → Option String)
    (oracle : BindgenOracles) (rs ih : Option String) :
    (bindgen_bpf_intf env oracle rs ih).1.head? =
      some (.emitDirective ("cargo:rerun-if-changed=" ++
        ih.getD "src/bpf/intf.h")) := by
  unfold bindgen_bpf_intf
  dsimp only
  repeat' split
  all_goals rfl

/-! ### The Skeleton Builder (`gen_bpf_skel`) -/

/-- Model of `Path::parent().unwrap()` followed by `to_string_lossy` for the
relative source paths this module handles: `none` for the empty path and
the bare root, otherwise everything before the final `/` (the empty string
when there is no `/`, matching Rust's `Some("")`). -/
def parentDirModel (p : String) : Option String :=
  if p = "" ∨ p = "/" then none
  else
    let kept := ((p.data.reverse.dropWhile (· ≠ '/')).drop 1).reverse
    if kept = [] ∧ p.data.head? = some '/' then some "/" else some ⟨kept⟩

/-- The `filter_map(Result::ok)` step on one glob iteration result. -/
def exceptOk : Except String String → Option String
  | .ok s => some s
  | .error _ => none

/-- Oracles for the Skeleton Builder's external effects: `build` models the
`SkeletonBuilder::new().source(…).obj(…).clang(…).clang_args(…)
.build_and_generate(…)` chain (arguments in that order: source, obj,
clang, clang_args, skeleton path); `globRun` models `glob::glob(pattern)`,
whose `Err` is an invalid pattern and whose `Ok` iterator yields one
`Result` per matched path. -/
structure SkelOracles where
  build : String → String → String → String → String → Except String Unit
  globRun : String → Except String (List (Except String String))

/-- Embedding of `gen_bpf_skel`: default the names, read `BPF_CFLAGS`,
`BPF_CLANG` and `OUT_DIR` (each `.unwrap()` panics if unset), invoke the
skeleton builder (`.unwrap()` panics on failure), then either emit one
`cargo:rerun-if-changed` directive per explicit dep, or glob the source
directory for `*.[hc]` and emit a directive per `Ok` match, silently
dropping `Err` items (`filter_map(Result::ok)`). -/
def gen_bpf_skel (env : String → Option String) (oracle : SkelOracles)
    (skel_name main_bpf_c : Option String) (deps : Option (List String)) :
    List Event × Except String Unit :=
  let main_bpf_c := main_bpf_c.getD "src/bpf/main.bpf.c"
  let skel_name := skel_name.getD "bpf"
  match env "BPF_CFLAGS" with
  | none => ([.envRead "BPF_CFLAGS"],
      .error "called `Result::unwrap()` on an `Err` value")
  | some bpf_cflags =>
    match env "BPF_CLANG" with
    | none => ([.envRead "BPF_CFLAGS", .envRead "BPF_CLANG"],
        .error "called `Result::unwrap()` on an `Err` value")
    | some bpf_clang =>
      match env "OUT_DIR" with
      | none => ([.envRead "BPF_CFLAGS", .envRead "BPF_CLANG", .envRead "OUT_DIR"],
          .error "called `Result::unwrap()` on an `Err` value")
      | some out =>
        let obj := out ++ "/" ++ skel_name ++ ".bpf.o"
        let skel_path := out ++ "/" ++ skel_name ++ "_skel.rs"
        let ev0 := [Event.envRead "BPF_CFLAGS", Event.envRead "BPF_CLANG",
          Event.envRead "OUT_DIR",
          Event.compileInvoked main_bpf_c obj bpf_clang bpf_cflags skel_path]
        match oracle.build main_bpf_c obj bpf_clang bpf_cflags skel_path with
        | .error _ => (ev0, .error "called `Result::unwrap()` on an `Err` value")
        | .ok _ =>
          match deps with
          | some l =>
            (ev0 ++ l.map (fun p => .emitDirective ("cargo:rerun-if-changed=" ++ p)),
              .ok ())
          | none =>
            match parentDirModel main_bpf_c with
            | none => (ev0, .error "called `Option::unwrap()` on a `None` value")
            | some dir =>
              let pat := dir ++ "/*.[hc]"
              match oracle.globRun pat with
              | .error _ => (ev0 ++ [.globQuery pat],
                  .error "called `Result::unwrap()` on an `Err` value")
              | .ok results =>
                (ev0 ++ [.globQuery pat] ++
                  (results.filterMap exceptOk).map
                    (fun p => .emitDirective ("cargo:rerun-if-changed=" ++ p)),
                  .ok ())

@[simp]
lemma emittedDirectives_cons_envRead (n : String) (t : List Event) :
    emittedDirectives (.envRead n :: t) = emittedDirectives t := rfl

@[simp]
lemma emittedDirectives_cons_emit (s : String) (t : List Event) :
    emittedDirectives (.emitDirective s :: t) = s :: emittedDirectives t := rfl

@[simp]
lemma emittedDirectives_cons_compile (a b c d e : String) (t : List Event) :
    emittedDirectives (.compileInvoked a b c d e :: t) = emittedDirectives t :=
  rfl

@[simp]
lemma emittedDirectives_cons_generate (a : String) (l : List String)
    (t : List Event) :
    emittedDirectives (.generateInvoked a l :: t) = emittedDirectives t := rfl

@[simp]
lemma emittedDirectives_cons_fileWrite (p : String) (t : List Event) :
    emittedDirectives (.fileWrite p :: t) = emittedDirectives t := rfl

@[simp]
lemma emittedDirectives_cons_globQuery (p : String) (t : List Event) :
    emittedDirectives (.globQuery p :: t) = emittedDirectives t := rfl

@[simp]
lemma emittedDirectives_append (a b : List Event) :
    emittedDirectives (a ++ b) = emittedDirectives a ++ emittedDirectives b :=
  List.filterMap_append a b _

@[simp]
lemma emittedDirectives_map_emit (l : List String) (g : String → String) :
    emittedDirectives (l.map fun p => Event.emitDirective (g p)) = l.map g := by
  induction l with
  | nil => rfl
  | cons p l ih => simp_all [emittedDirectives]

/-- C2: with explicit deps the run succeeds, emits exactly one directive per
listed path, verbatim and in list order, never queries the glob, and its
whole behaviour is independent of the glob oracle. -/
theorem gen_bpf_skel_explicit_deps (env : String → Option String)
    (o1 o2 : SkelOracles) (sn ms : Option String) (l : List String)
    (cf cl out : String)
    (hcf : env "BPF_CFLAGS" = some cf) (hcl : env "BPF_CLANG" = some cl)
    (hout : env "OUT_DIR" = some out)
    (hbuild : ∀ a b c d e, o1.build a b c d e = .ok ())
    (hsame : o1.build = o2.build) :
    gen_bpf_skel env o1 sn ms (some l) = gen_bpf_skel env o2 sn ms (some l) ∧
    emittedDirectives (gen_bpf_skel env o1 sn ms (some l)).1 =
      l.map (fun p => "cargo:rerun-if-changed=" ++ p) ∧
    (gen_bpf_skel env o1 sn ms (some l)).1.any Event.isGlobQuery = false ∧
    (gen_bpf_skel env o1 sn ms (some l)).2 = .ok () := by
  refine ⟨?_, ?_, ?_, ?_⟩ <;>
    simp [gen_bpf_skel, hcf, hcl, hout, hbuild, ← hsame, Event.isGlobQuery]

/-- Witness for C2: deps `["a.h", "b.c"]` produce exactly those two
directives in order, with no glob query, for two oracles whose glob parts
disagree wildly. -/
theorem gen_bpf_skel_explicit_deps_witness :
    (gen_bpf_skel
        (fun n => if n = "BPF_CFLAGS" then some "-O2"
          else if n = "BPF_CLANG" then some "clang"
          else if n = "OUT_DIR" then some "out" else none)
        ⟨fun _ _ _ _ _ => .ok (), fun _ => .ok [.ok "src/bpf/other.h"]⟩
        none none (some ["a.h", "b.c"])) =
      (gen_bpf_skel
        (fun n => if n = "BPF_CFLAGS" then some "-O2"
          else if n = "BPF_CLANG" then some "clang"
          else if n = "OUT_DIR" then some "out" else none)
        ⟨fun _ _ _ _ _ => .ok (), fun _ => .error "bad pattern"⟩
        none none (some ["a.h", "b.c"])) ∧
    emittedDirectives (gen_bpf_skel
        (fun n => if n = "BPF_CFLAGS" then some "-O2"
          else if n = "BPF_CLANG" then some "clang"
          else if n = "OUT_DIR" then some "out" else none)
        ⟨fun _ _ _ _ _ => .ok (), fun _ => .ok [.ok "src/bpf/other.h"]⟩
        none none (some ["a.h", "b.c"])).1 =
      ["cargo:rerun-if-changed=a.h", "cargo:rerun-if-changed=b.c"] := by
  have h := gen_bpf_skel_explicit_deps
    (fun n => if n = "BPF_CFLAGS" then some "-O2"
      else if n = "BPF_CLANG" then some "clang"
      else if n = "OUT_DIR" then some "out" else none)
    ⟨fun _ _ _ _ _ => .ok (), fun _ => .ok [.ok "src/bpf/other.h"]⟩
    ⟨fun _ _ _ _ _ => .ok (), fun _ => .error "bad pattern"⟩
    none none ["a.h", "b.c"] "-O2" "clang" "out" rfl rfl rfl
    (fun _ _ _ _ _ => rfl) rfl
  exact ⟨h.1, h.2.1⟩

/-- C5: if `BPF_CFLAGS` or `BPF_CLANG` is unset, the run panics and the
trace contains no compiler invocation. -/
theorem gen_bpf_skel_missing_env (env : String → Option String)
    (oracle : SkelOracles) (sn ms : Option String) (deps : Option (List String))
    (h : env "BPF_CFLAGS" = none ∨ env "BPF_CLANG" = none) :
    (gen_bpf_skel env oracle sn ms deps).2.isOk = false ∧
    (gen_bpf_skel env oracle sn ms deps).1.any Event.isCompile = false := by
  rcases h with h | h
  · simp [gen_bpf_skel, h, Event.isCompile, Except.isOk, Except.toBool]
  · cases hcf : env "BPF_CFLAGS" <;>
      simp [gen_bpf_skel, hcf, h, Event.isCompile, Except.isOk, Except.toBool]

/-- Witness for C5: an empty environment makes the run fail with no
compiler invocation. -/
theorem gen_bpf_skel_missing_env_witness :
    (gen_bpf_skel (fun _ => none)
        ⟨fun _ _ _ _ _ => .ok (), fun _ => .ok []⟩ none none none).2.isOk =
      false ∧
    (gen_bpf_skel (fun _ => none)
        ⟨fun _ _ _ _ _ => .ok (), fun _ => .ok []⟩ none none none).1.any
      Event.isCompile = false :=
  gen_bpf_skel_missing_env (fun _ => none)
    ⟨fun _ _ _ _ _ => .ok (), fun _ => .ok []⟩ none none none (Or.inl rfl)

/-! ### Glob pattern matching

Modelled from the glob crate's `Pattern` semantics for the patterns this
module constructs (`<dir>/*.[hc]`): `*` matches any possibly-empty run of
non-separator characters, `?` one non-separator character, `[…]` one
character from the listed set, everything else literally; matching is
case-sensitive and anchored at both ends. -/

inductive GTok where
  | lit (c : Char)
  | star
  | anyOne
  | cls (cs : List Char)
  deriving Repr, DecidableEq

/-- One right-to-left tokenizer step: the state carries the token list built
so far and, while inside a `[…]` class, the members collected so far. -/
def tokStep (c : Char) (st : Option (List Char) × List GTok) :
    Option (List Char) × List GTok :=
  match st with
  | (some acc, ts) =>
    if c = '[' then (none, .cls acc :: ts) else (some (c :: acc), ts)
  | (none, ts) =>
    if c = ']' then (some [], ts)
    else if c = '*' then (none, .star :: ts)
    else if c = '?' then (none, .anyOne :: ts)
    else (none, .lit c :: ts)

/-- Tokenize a glob pattern. -/
def tokenizeGlob (cs : List Char) : List GTok :=
  (cs.foldr tokStep (none, [])).2

/-- The suffixes of `cs` whose dropped front contains no `/`: exactly the
ways the glob `*` can consume input. -/
def starSuffixes : List Char → List (List Char)
  | [] => [[]]
  | c :: cs => (c :: cs) :: (if c = '/' then [] else starSuffixes cs)

/-- Match a token list against a path, anchored at both ends. -/
def gmatch : List GTok → List Char → Bool
  | [], cs => cs.isEmpty
  | .lit a :: ps, cs =>
    match cs with
    | [] => false
    | c :: cs' => (a == c) && gmatch ps cs'
  | .anyOne :: ps, cs =>
    match cs with
    | [] => false
    | c :: cs' => (c != '/') && gmatch ps cs'
  | .cls l :: ps, cs =>
    match cs with
    | [] => false
    | c :: cs' => l.contains c && gmatch ps cs'
  | .star :: ps, cs => (starSuffixes cs).any fun s => gmatch ps s

/-- Does `path` match the glob `pat`? -/
def globMatch (pat path : String) : Bool :=
  gmatch (tokenizeGlob pat.data) path.data

/-- Modelled from the glob crate: `glob(pattern)` over a model filesystem
`fs` (the list of existing paths) succeeds for the valid patterns this
module constructs and yields one readable (`Ok`) item per matching path. -/
def globOracleOf (fs : List String) :
    String → Except String (List (Except String String)) :=
  fun pat => .ok ((fs.filter (fun p => globMatch pat p)).map .ok)

lemma foldr_tokStep_lits (ds : List Char) (ts : List GTok)
    (h : ∀ c ∈ ds, c ≠ ']' ∧ c ≠ '*' ∧ c ≠ '?') :
    ds.foldr tokStep (none, ts) = (none, ds.map .lit ++ ts) := by
  induction ds with
  | nil => rfl
  | cons c ds ih =>
    have hc := h c (by simp)
    have hrest : ∀ x ∈ ds, x ≠ ']' ∧ x ≠ '*' ∧ x ≠ '?' :=
      fun x hx => h x (by simp [hx])
    simp [List.foldr_cons, ih hrest, tokStep, hc.1, hc.2.1, hc.2.2]

lemma tokenizeGlob_dir (dir : List Char)
    (h : ∀ c ∈ dir, c ≠ ']' ∧ c ≠ '*' ∧ c ≠ '?') :
    tokenizeGlob (dir ++ "/*.[hc]".data) =
      dir.map .lit ++ [.lit '/', .star, .lit '.', .cls ['h', 'c']] := by
  unfold tokenizeGlob
  rw [List.foldr_append]
  have hsuffix : "/*.[hc]".data.foldr tokStep (none, []) =
      (none, [.lit '/', .star, .lit '.', .cls ['h', 'c']]) := rfl
  rw [hsuffix, foldr_tokStep_lits dir _ h]

lemma mem_starSuffixes (cs b : List Char) :
    b ∈ starSuffixes cs ↔ ∃ a, cs = a ++ b ∧ '/' ∉ a := by
  induction cs with
  | nil =>
    constructor
    · intro hb
      simp [starSuffixes] at hb
      exact ⟨[], by simp [hb]⟩
    · rintro ⟨a, ha, -⟩
      have : a = [] ∧ b = [] := by
        constructor <;> [exact List.append_eq_nil.mp ha.symm |>.1;
          exact List.append_eq_nil.mp ha.symm |>.2]
      simp [starSuffixes, this.2]
  | cons c cs ih =>
    by_cases hc : c = '/'
    · subst hc
      simp only [starSuffixes, if_pos rfl]
      constructor
      · intro hb
        simp at hb
        exact ⟨[], by simp [hb]⟩
      · rintro ⟨a, ha, hslash⟩
        cases a with
        | nil => simp at ha; simp [ha]
        | cons a0 as =>
          simp at ha
          exact absurd (ha.1 ▸ List.mem_cons_self a0 as) (by
            intro hmem
            exact hslash (by simp [← ha.1]))
    · simp only [starSuffixes, if_neg hc, List.mem_cons]
      rw [ih]
      constructor
      · rintro (rfl | ⟨a, rfl, hslash⟩)
        · exact ⟨[], by simp⟩
        · refine ⟨c :: a, by simp, ?_⟩
          simp [hslash]
          exact fun h => hc h.symm
      · rintro ⟨a, ha, hslash⟩
        cases a with
        | nil => simp at ha; exact Or.inl ha.symm
        | cons a0 as =>
          simp at ha
          exact Or.inr ⟨as, ha.2, fun hm => hslash (by simp [hm])⟩

lemma gmatch_star (ps : List GTok) (cs : List Char) :
    gmatch (.star :: ps) cs = true ↔
      ∃ a b, cs = a ++ b ∧ '/' ∉ a ∧ gmatch ps b = true := by
  simp only [gmatch, List.any_eq_true]
  constructor
  · rintro ⟨s, hs, hm⟩
    obtain ⟨a, rfl, hslash⟩ := (mem_starSuffixes cs s).mp hs
    exact ⟨a, s, rfl, hslash, hm⟩
  · rintro ⟨a, b, rfl, hslash, hm⟩
    exact ⟨b, (mem_starSuffixes _ b).mpr ⟨a, rfl, hslash⟩, hm⟩

lemma gmatch_lits (ds : List Char) (ps : List GTok) (cs : List Char) :
    gmatch (ds.map .lit ++ ps) cs = true ↔
      ∃ es, cs = ds ++ es ∧ gmatch ps es = true := by
  induction ds generalizing cs with
  | nil => simp
  | cons d ds ih =>
    cases cs with
    | nil =>
      simp only [List.map_cons, List.cons_append, gmatch]
      constructor
      · intro hf; exact absurd hf (by simp)
      · rintro ⟨es, hes, -⟩
        exact absurd hes (by simp)
    | cons c cs' =>
      simp only [List.map_cons, List.cons_append, gmatch, Bool.and_eq_true,
        beq_iff_eq, List.append_eq]
      rw [ih]
      constructor
      · rintro ⟨rfl, es, rfl, hm⟩
        exact ⟨es, rfl, hm⟩
      · rintro ⟨es, hes, hm⟩
        simp at hes
        exact ⟨hes.1.symm, es, hes.2, hm⟩

lemma gmatch_dot_cls (l : List Char) (b : List Char) :
    gmatch [.lit '.', .cls l] b = true ↔
      ∃ c, b = ['.', c] ∧ l.contains c = true := by
  cases b with
  | nil => simp [gmatch]
  | cons x b' =>
    cases b' with
    | nil => simp [gmatch]
    | cons y b'' =>
      cases b'' with
      | nil =>
        have hg : gmatch [.lit '.', .cls l] [x, y] =
            (('.' == x) && l.contains y) := by
          simp [gmatch]
        rw [hg]
        constructor
        · intro hm
          rw [Bool.and_eq_true, beq_iff_eq] at hm
          exact ⟨y, by rw [← hm.1], hm.2⟩
        · rintro ⟨c, hc, hcont⟩
          have hx : x = '.' := by injection hc
          have hy : y = c := by
            injection hc with h1 h2
            injection h2
          rw [Bool.and_eq_true, beq_iff_eq]
          exact ⟨hx.symm, hy ▸ hcont⟩
      | cons z rest =>
        simp [gmatch, List.isEmpty]

/-- Characterization of the discovery pattern: a path matches
`<dir>/*.[hc]` exactly when it is `<dir>/<stem>.<h|c>` with a
separator-free stem — i.e. a `.h` or `.c` file directly in `dir`. -/
lemma globMatch_dir_hc (dir p : String)
    (hmeta : ∀ c ∈ dir.data, c ≠ ']' ∧ c ≠ '*' ∧ c ≠ '?') :
    globMatch (dir ++ "/*.[hc]") p = true ↔
      ∃ stem c, p.data = dir.data ++ '/' :: stem ++ ['.', c] ∧ '/' ∉ stem ∧
        (c = 'h' ∨ c = 'c') := by
  unfold globMatch
  rw [show (dir ++ "/*.[hc]").data = dir.data ++ "/*.[hc]".data from
    String.data_append dir _]
  rw [tokenizeGlob_dir dir.data hmeta]
  rw [show dir.data.map GTok.lit ++ [GTok.lit '/', .star, .lit '.', .cls ['h', 'c']] =
    (dir.data ++ ['/']).map GTok.lit ++ [GTok.star, .lit '.', .cls ['h', 'c']] by
      simp]
  rw [gmatch_lits]
  constructor
  · rintro ⟨es, hes, hm⟩
    obtain ⟨a, b, rfl, hslash, hm'⟩ := (gmatch_star _ es).mp hm
    obtain ⟨c, rfl, hc⟩ := (gmatch_dot_cls _ b).mp hm'
    refine ⟨a, c, by simp [hes], hslash, ?_⟩
    simpa [List.elem_iff] using hc
  · rintro ⟨stem, c, hp, hslash, hc⟩
    refine ⟨stem ++ ['.', c], by simp [hp], ?_⟩
    rw [gmatch_star]
    refine ⟨stem, ['.', c], rfl, hslash, ?_⟩
    rw [gmatch_dot_cls]
    exact ⟨c, rfl, by simpa [List.elem_iff] using hc⟩

/-- C3: with `deps = None`, successful env reads and a successful build,
dependency discovery emits directives only for `.h`/`.c` files directly in
the source directory (the glob is non-recursive), and when the filesystem
holds no matching file it emits zero directives and the run still
succeeds. -/
theorem gen_bpf_skel_glob_discovery (env : String → Option String)
    (build : String → String → String → String → String → Except String Unit)
    (fs : List String) (sn ms : Option String) (dir : String)
    (cf cl out : String)
    (hcf : env "BPF_CFLAGS" = some cf) (hcl : env "BPF_CLANG" = some cl)
    (hout : env "OUT_DIR" = some out)
    (hbuild : ∀ a b c d e, build a b c d e = .ok ())
    (hdir : parentDirModel (ms.getD "src/bpf/main.bpf.c") = some dir)
    (hmeta : ∀ c ∈ dir.data, c ≠ ']' ∧ c ≠ '*' ∧ c ≠ '?') :
    (∀ d ∈ emittedDirectives
        (gen_bpf_skel env ⟨build, globOracleOf fs⟩ sn ms none).1,
      ∃ p stem c, d = "cargo:rerun-if-changed=" ++ p ∧
        p.data = dir.data ++ '/' :: stem ++ ['.', c] ∧ '/' ∉ stem ∧
        (c = 'h' ∨ c = 'c')) ∧
    ((∀ p ∈ fs, globMatch (dir ++ "/*.[hc]") p = false) →
      emittedDirectives
          (gen_bpf_skel env ⟨build, globOracleOf fs⟩ sn ms none).1 = [] ∧
        (gen_bpf_skel env ⟨build, globOracleOf fs⟩ sn ms none).2 = .ok ()) := by
  have hdirectives : emittedDirectives
      (gen_bpf_skel env ⟨build, globOracleOf fs⟩ sn ms none).1 =
      (fs.filter (fun p => globMatch (dir ++ "/*.[hc]") p)).map
        (fun p => "cargo:rerun-if-changed=" ++ p) := by
    simp only [gen_bpf_skel, hcf, hcl, hout, hbuild, hdir, globOracleOf]
    induction fs with
    | nil => rfl
    | cons p fs ih =>
      by_cases hp : globMatch (dir ++ "/*.[hc]") p = true
      · simp_all [List.filter_cons, exceptOk]
      · simp_all [List.filter_cons, exceptOk]
  constructor
  · intro d hd
    rw [hdirectives] at hd
    obtain ⟨p, hp, rfl⟩ := List.mem_map.mp hd
    have hmatch : globMatch (dir ++ "/*.[hc]") p = true :=
      (List.mem_filter.mp hp).2
    obtain ⟨stem, c, hpd, hslash, hc⟩ := (globMatch_dir_hc dir p hmeta).mp hmatch
    exact ⟨p, stem, c, rfl, hpd, hslash, hc⟩
  · intro hnone
    have hfilter : fs.filter (fun p => globMatch (dir ++ "/*.[hc]") p) = [] := by
      rw [List.filter_eq_nil_iff]
      intro p hp
      simp [hnone p hp]
    refine ⟨by rw [hdirectives, hfilter]; rfl, ?_⟩
    simp [gen_bpf_skel, hcf, hcl, hout, hbuild, hdir, globOracleOf]

/-- Witness for C3: with the default source `src/bpf/main.bpf.c` and a
filesystem holding only a non-`.h`/`.c` file and a `.h` file in a
subdirectory, discovery emits zero directives and the run succeeds. -/
theorem gen_bpf_skel_glob_discovery_witness :
    emittedDirectives (gen_bpf_skel
        (fun n => if n = "BPF_CFLAGS" then some "-O2"
          else if n = "BPF_CLANG" then some "clang"
          else if n = "OUT_DIR" then some "out" else none)
        ⟨fun _ _ _ _ _ => .ok (),
          globOracleOf ["src/bpf/notes.txt", "src/bpf/deep/extra.h"]⟩
        none none none).1 = [] ∧
    (gen_bpf_skel
        (fun n => if n = "BPF_CFLAGS" then some "-O2"
          else if n = "BPF_CLANG" then some "clang"
          else if n = "OUT_DIR" then some "out" else none)
        ⟨fun _ _ _ _ _ => .ok (),
          globOracleOf ["src/bpf/notes.txt", "src/bpf/deep/extra.h"]⟩
        none none none).2 = .ok () := by
  have h := gen_bpf_skel_glob_discovery
    (fun n => if n = "BPF_CFLAGS" then some "-O2"
      else if n = "BPF_CLANG" then some "clang"
      else if n = "OUT_DIR" then some "out" else none)
    (fun _ _ _ _ _ => .ok ())
    ["src/bpf/notes.txt", "src/bpf/deep/extra.h"] none none "src/bpf"
    "-O2" "clang" "out" rfl rfl rfl (fun _ _ _ _ _ => rfl) (by decide)
    (by decide)
  exact h.2 (by decide)

/-- C10: a per-path glob error (`Err` item in the iteration) is silently
skipped by `filter_map(Result::ok)`: the run still succeeds, the emitted
directives are the same as if the erroneous item were absent, and every
`Ok` path before and after it is still emitted. -/
theorem gen_bpf_skel_skips_glob_errors (env : String → Option String)
    (build : String → String → String → String → String → Except String Unit)
    (sn ms : Option String) (dir : String) (cf cl out emsg : String)
    (pre post : List (Except String String))
    (hcf : env "BPF_CFLAGS" = some cf) (hcl : env "BPF_CLANG" = some cl)
    (hout : env "OUT_DIR" = some out)
    (hbuild : ∀ a b c d e, build a b c d e = .ok ())
    (hdir : parentDirModel (ms.getD "src/bpf/main.bpf.c") = some dir) :
    (gen_bpf_skel env
        ⟨build, fun _ => .ok (pre ++ .error emsg :: post)⟩ sn ms none).2 =
      .ok () ∧
    emittedDirectives (gen_bpf_skel env
        ⟨build, fun _ => .ok (pre ++ .error emsg :: post)⟩ sn ms none).1 =
      emittedDirectives (gen_bpf_skel env
        ⟨build, fun _ => .ok (pre ++ post)⟩ sn ms none).1 ∧
    emittedDirectives (gen_bpf_skel env
        ⟨build, fun _ => .ok (pre ++ .error emsg :: post)⟩ sn ms none).1 =
      ((pre ++ post).filterMap exceptOk).map
        (fun p => "cargo:rerun-if-changed=" ++ p) := by
  refine ⟨?_, ?_, ?_⟩ <;>
    simp [gen_bpf_skel, hcf, hcl, hout, hbuild, hdir, exceptOk,
      List.filterMap_append]

/-- Witness for C10: an unreadable path between two readable matches is
dropped while both readable matches are still emitted and the run
succeeds. -/
theorem gen_bpf_skel_skips_glob_errors_witness :
    (gen_bpf_skel
        (fun n => if n = "BPF_CFLAGS" then some "-O2"
          else if n = "BPF_CLANG" then some "clang"
          else if n = "OUT_DIR" then some "out" else none)
        ⟨fun _ _ _ _ _ => .ok (),
          fun _ => .ok [.ok "src/bpf/a.h", .error "unreadable",
            .ok "src/bpf/b.c"]⟩ none none none).2 = .ok () ∧
    emittedDirectives (gen_bpf_skel
        (fun n => if n = "BPF_CFLAGS" then some "-O2"
          else if n = "BPF_CLANG" then some "clang"
          else if n = "OUT_DIR" then some "out" else none)
        ⟨fun _ _ _ _ _ => .ok (),
          fun _ => .ok [.ok "src/bpf/a.h", .error "unreadable",
            .ok "src/bpf/b.c"]⟩ none none none).1 =
      ["cargo:rerun-if-changed=src/bpf/a.h",
        "cargo:rerun-if-changed=src/bpf/b.c"] := by
  have h := gen_bpf_skel_skips_glob_errors
    (fun n => if n = "BPF_CFLAGS" then some "-O2"
      else if n = "BPF_CLANG" then some "clang"
      else if n = "OUT_DIR" then some "out" else none)
    (fun _ _ _ _ _ => .ok ()) none none "src/bpf" "-O2" "clang" "out"
    "unreadable" [.ok "src/bpf/a.h"] [.ok "src/bpf/b.c"]
    rfl rfl rfl (fun _ _ _ _ _ => rfl) (by decide)
  exact ⟨h.1, by rw [show ([Except.ok "src/bpf/a.h"] ++ [Except.error "unreadable", Except.ok "src/bpf/b.c"] : List (Except String String)) = [Except.ok "src/bpf/a.h", Except.error "unreadable", Except.ok "src/bpf/b.c"] from rfl] at h; rw [h.2.2]; rfl⟩

/-! ### The Header Installer (`install_bpf_h`) -/

/-- Sequential extraction of the archive entries to a destination, stopping
at the first failing entry (`tar::Archive::unpack`); `writeEntry dest e`
models extracting the single entry `e` under `dest`. -/
def unpackEntries (writeEntry : String → TarEntry → Except String Unit)
    (dest : String) : List TarEntry → Except String Unit
  | [] => .ok ()
  | e :: rest =>
    match writeEntry dest e with
    | .error msg => .error msg
    | .ok _ => unpackEntries writeEntry dest rest

/-- Embedding of `install_bpf_h`: `ar.unpack(dest)?; Ok(())` — the `?`
operator returns the extraction failure as the function's own `Err`
value; nothing panics. -/
def install_bpf_h (writeEntry : String → TarEntry → Except String Unit)
    (dest : String) (ar : List TarEntry) : Except String Unit :=
  match unpackEntries writeEntry dest ar with
  | .error msg => .error msg
  | .ok _ => .ok ()

/-- C8: for every destination the call returns a `Result`: `Ok(())` when
every entry extracts, the first extraction failure's error otherwise —
propagated as a value, never a panic. -/
theorem install_bpf_h_result (writeEntry : String → TarEntry → Except String Unit)
    (dest : String) (ar : List TarEntry) :
    (install_bpf_h writeEntry dest ar = .ok () ∨
      ∃ msg, install_bpf_h writeEntry dest ar = .error msg) ∧
    ((∀ e ∈ ar, writeEntry dest e = .ok ()) →
      install_bpf_h writeEntry dest ar = .ok ()) ∧
    (∀ pre e rest msg, ar = pre ++ e :: rest →
      (∀ x ∈ pre, writeEntry dest x = .ok ()) →
      writeEntry dest e = .error msg →
      install_bpf_h writeEntry dest ar = .error msg) := by
  refine ⟨?_, ?_, ?_⟩
  · cases h : install_bpf_h writeEntry dest ar with
    | ok u => exact Or.inl rfl
    | error msg => exact Or.inr ⟨msg, rfl⟩
  · intro hall
    unfold install_bpf_h
    have : unpackEntries writeEntry dest ar = .ok () := by
      induction ar with
      | nil => rfl
      | cons e rest ih =>
        have he := hall e (by simp)
        simp only [unpackEntries, he]
        exact ih fun x hx => hall x (by simp [hx])
    rw [this]
  · intro pre e rest msg har hok hfail
    subst har
    unfold install_bpf_h
    have : unpackEntries writeEntry dest (pre ++ e :: rest) = .error msg := by
      induction pre with
      | nil => simp [unpackEntries, hfail]
      | cons x pre ih =>
        have hx := hok x (by simp)
        simp only [List.cons_append, unpackEntries, hx]
        exact ih fun y hy => hok y (by simp [hy])
    rw [this]

/-- Witness for C8: a writer that fails only on the entry at path `"bad"`
yields `Ok` on a clean archive and the propagated error on an archive
containing that entry. -/
theorem install_bpf_h_result_witness :
    install_bpf_h
      (fun _ e => if e.path = "bad" then .error "io" else .ok ()) "dest"
      [⟨"a", none⟩] = .ok () ∧
    install_bpf_h
      (fun _ e => if e.path = "bad" then .error "io" else .ok ()) "dest"
      [⟨"a", none⟩, ⟨"bad", none⟩, ⟨"z", none⟩] = .error "io" := by
  constructor
  · exact (install_bpf_h_result _ "dest" _).2.1 (by
      intro e he
      simp at he
      subst he
      rfl)
  · exact (install_bpf_h_result _ "dest" _).2.2 [⟨"a", none⟩] ⟨"bad", none⟩
      [⟨"z", none⟩] "io" rfl (by
        intro x hx
        simp at hx
        subst hx
        rfl) rfl

end BuildHelpers
